import Mathlib

/-!
Verification of the webonary dictionary-entry search planner
(`searchEntries` and `handler` in the search lambda, plus its external
collaborators as described by the specification).

The planner is embedded shallowly:
* `SearchEntriesArguments` mirrors the TypeScript interface of the same name
  (`string | undefined` becomes `Option String`; the `$language` field is
  named `language` since `$` is not a Lean identifier character).
* The Mongo filter documents built by the code are represented by the
  `DbFilter` AST, and `searchPlan` reproduces the branching of
  `searchEntries` to record exactly which store call the code issues
  (find / aggregate / countDocuments, with which filter, collation and
  pagination arguments).
* `execPlan` executes a plan against a store modelled as a `List Entry`,
  reproducing the result shaping of the source (the empty-to-NotFound gate,
  count envelopes, early returns of the semantic-domain branch).
-/

namespace Webonary

/-- JavaScript truthiness of a `string | undefined` value: `undefined` and
the empty string are falsy, every other string is truthy. -/
def jsTruthy : Option String → Bool
  | none => false
  | some s => !(s == "")

/-- The value of an optional string where the source has already checked
truthiness (so the `none` default is never reached on the guarded paths). -/
def jsVal (o : Option String) : String := o.getD ""

/-- Strict equality test `o === '1'` used by the source for all boolean-like
query-string flags. -/
def isOne (o : Option String) : Bool := o == some "1"

/-- Modelled from the spec: a tagged multilingual value of an entry, a pair
of a language tag and a string value (spec section 3, `{lang, value}` pairs;
the file `entry.model.ts` defining `DbPaths` is not under `src/`). -/
structure TaggedValue where
  lang : String
  value : String
deriving DecidableEq, Repr

/-- Modelled from the spec: a dictionary entry (spec section 3).  The file
`entry.model.ts` is not under `src/`; the nested sense structure is
flattened into the lists of tagged values that the dotted Mongo paths
(`mainHeadWord.value`, `senses.definitionOrGloss.value`,
`senses.partOfSpeech.value`, `senses.semanticDomains.name.value`,
`senses.semanticDomains.abbreviation.value`) traverse. -/
structure Entry where
  dictionaryId : String
  mainHeadWord : List TaggedValue
  definitionOrGloss : List TaggedValue
  partOfSpeech : List TaggedValue
  semDomName : List TaggedValue
  semDomAbbrev : List TaggedValue
deriving DecidableEq, Repr

/-- The array-valued entry fields addressed by the dotted paths of
`DbPaths` and by the literal paths `mainHeadWord` /
`senses.definitionOrGloss` in the source. -/
inductive EntryField where
  | mainHeadWord
  | definitionOrGloss
  | partOfSpeech
  | semDomName
  | semDomAbbrev
deriving DecidableEq, Repr

def entryField (e : Entry) : EntryField → List TaggedValue
  | .mainHeadWord => e.mainHeadWord
  | .definitionOrGloss => e.definitionOrGloss
  | .partOfSpeech => e.partOfSpeech
  | .semDomName => e.semDomName
  | .semDomAbbrev => e.semDomAbbrev

/-- The text-search predicate the source builds on the non-partial path:
`\x7b $search, $language, $diacriticSensitive \x7d` (line 189 of the
source). -/
structure TextPredicate where
  search : String
  language : String
  diacriticSensitive : Bool
deriving DecidableEq, Repr

/-- Conditions the source attaches to a single (dotted) field path. -/
inductive FieldCond where
  /-- direct equality with a string -/
  | eqStr (v : String)
  /-- `$regex: pattern, $options: i` -/
  | regexI (pattern : String)
  /-- `$in: [abbrev, RegExp of caret abbrev dot]` (source line 73-75) -/
  | abbrevIn (a : String)
deriving DecidableEq, Repr

/-- The Mongo filter documents that `searchEntries` builds, as an AST. -/
inductive DbFilter where
  /-- `dictionaryId: args.dictionaryId` -/
  | dictIdEq (v : Option String)
  /-- a condition on the `.value` of any element of an array field -/
  | fieldValue (f : EntryField) (c : FieldCond)
  /-- `$elemMatch: \x7b lang, value \x7d` on an array field -/
  | fieldElemMatch (f : EntryField) (lang : String) (c : FieldCond)
  | orF (l r : DbFilter)
  | andF (l r : DbFilter)
  | textF (t : TextPredicate)
deriving DecidableEq, Repr

/-- Does the pattern list match at the start of the text list?  Pattern
characters are literal except the dot, which is the JavaScript regex
wildcard (any character but a line terminator).  No end anchor. -/
def patMatchesAt : List Char → List Char → Bool
  | [], _ => true
  | _ :: _, [] => false
  | c :: ps, d :: ds =>
    (if c = '.' then !(d == '\n') else c == d) && patMatchesAt ps ds

/-- Semantics of the test of the JavaScript regex built from the template
caret, abbreviation, dot (source line 74): anchored at the string start,
each abbreviation character taken as in the regex source (so a dot inside
the abbreviation is again a wildcard), followed by one wildcard character,
unanchored at the end. -/
def abbrevRegexTest (ab s : String) : Bool :=
  patMatchesAt (ab.data ++ ['.']) s.data

/-- Does the pattern occur at the start of the text (character lists,
literal comparison)? -/
def litMatchesAt : List Char → List Char → Bool
  | [], _ => true
  | _ :: _, [] => false
  | c :: ps, d :: ds => (c == d) && litMatchesAt ps ds

/-- Does the pattern occur anywhere in the text (character lists)? -/
def occursIn (p : List Char) : List Char → Bool
  | [] => p.isEmpty
  | d :: ds => litMatchesAt p (d :: ds) || occursIn p ds

/-- Modelled from the spec: the case-insensitive substring regex filter of
spec section 4.3 (`$regex: text, $options: i`), for search texts without
regex metacharacters. -/
def regexITest (pattern s : String) : Bool :=
  occursIn (pattern.data.map Char.toLower) (s.data.map Char.toLower)

/-- Modelled from the spec: the store's full-text engine is an external
collaborator (spec section 1); phrase search is modelled as containment of
the quoted phrase's body in some headword or definition value.  None of the
theorems below depend on the internals of this function, only on which
`TextPredicate` the planner hands to it and how its results are counted,
shaped and paginated. -/
def textSearchMatches (t : TextPredicate) (e : Entry) : Bool :=
  let phrase :=
    match t.search.data with
    | '"' :: rest => (rest.reverse.dropWhile (· = '"')).reverse
    | other => other
  (e.mainHeadWord ++ e.definitionOrGloss).any fun tv =>
    occursIn phrase tv.value.data

def evalCond : FieldCond → String → Bool
  | .eqStr v, s => s == v
  | .regexI p, s => regexITest p s
  | .abbrevIn a, s => (s == a) || abbrevRegexTest a s

/-- Satisfaction of a filter document by an entry (Mongo matching semantics
for the filter shapes the source builds; the store is external, spec
section 1). -/
def evalFilter : DbFilter → Entry → Bool
  | .dictIdEq v, e =>
    match v with
    | some s => e.dictionaryId == s
    | none => false
  | .fieldValue f c, e => (entryField e f).any fun tv => evalCond c tv.value
  | .fieldElemMatch f l c, e =>
    (entryField e f).any fun tv => (tv.lang == l) && evalCond c tv.value
  | .orF a b, e => evalFilter a e || evalFilter b e
  | .andF a b, e => evalFilter a e && evalFilter b e
  | .textF t, e => textSearchMatches t e

/-- The argument record of `searchEntries` (the TypeScript interface
`SearchEntriesArguments`; the `$language` field is named `language`). -/
structure SearchEntriesArguments where
  pageNumber : Nat
  pageLimit : Nat
  dictionaryId : Option String
  searchSemDoms : Option String
  semDomAbbrev : Option String
  lang : Option String
  text : String
  countTotalOnly : Option String
  partOfSpeech : Option String
  mainLang : Option String
  matchPartial : Option String
  matchAccents : Option String
  language : String
deriving DecidableEq, Repr

/-- Modelled from the spec: `getDbSkip` lives in `utils.ts`, which is not
under `src/`; spec section 6 fixes it as pagination offset
`(pageNumber - 1) * pageLimit`. -/
def getDbSkip (pageNumber pageLimit : Nat) : Nat :=
  (pageNumber - 1) * pageLimit

/-- Modelled from the spec: the collation constants live in `db.ts`, which
is not under `src/`.  Spec section 4.3 fixes only their roles (a fixed
accent-insensitive default locale, a case-insensitive default strength, an
escalated accent-and-case-sensitive strength); the concrete values stand in
for that external configuration and no theorem depends on them beyond
identity and distinctness. -/
def DB_COLLATION_LOCALE_DEFAULT_FOR_INSENSITIVITY : String := "en"

/-- Modelled from the spec: see
`DB_COLLATION_LOCALE_DEFAULT_FOR_INSENSITIVITY`. -/
def DB_COLLATION_STRENGTH_FOR_CASE_INSENSITIVITY : Nat := 1

/-- Modelled from the spec: see
`DB_COLLATION_LOCALE_DEFAULT_FOR_INSENSITIVITY`. -/
def DB_COLLATION_STRENGTH_FOR_SENSITIVITY : Nat := 3

/-- Modelled from the spec: the list of store-recognized collation locales
(`db.ts`, not under `src/`); spec section 4.3 says only that `lang`
overrides the default locale when it is a recognized collation locale.  A
concrete representative list; no theorem depends on its contents. -/
def DB_COLLATION_LOCALES : List String := ["en", "fr", "es"]

/-- Modelled from the spec: `DB_MAX_DOCUMENTS_PER_CALL` lives in `db.ts`,
not under `src/`; spec sections 3 and 6 fix the page-size maximum at 100. -/
def DB_MAX_DOCUMENTS_PER_CALL : ℚ := 100

/-- A collation argument as passed to the store: `\x7b locale, strength \x7d`. -/
structure Collation where
  locale : String
  strength : Nat
deriving DecidableEq, Repr

/-- The collation the source computes (source lines 64-65, 118-121,
152-154): locale overridden by a recognized `lang`, strength escalated by
`matchAccents`.  The source only consumes it on the partial-match find. -/
def collationOf (args : SearchEntriesArguments) : Collation :=
  { locale :=
      if jsTruthy args.lang && DB_COLLATION_LOCALES.contains (jsVal args.lang) then
        jsVal args.lang
      else DB_COLLATION_LOCALE_DEFAULT_FOR_INSENSITIVITY
    strength :=
      if isOne args.matchAccents then DB_COLLATION_STRENGTH_FOR_SENSITIVITY
      else DB_COLLATION_STRENGTH_FOR_CASE_INSENSITIVITY }

/-- The semantic-domain filter (source lines 71-94): abbreviation search
(`$in` of the exact abbreviation and the caret-abbrev-dot regex), with an
`$elemMatch` language constraint when `lang` is truthy, else name-value
equality with `text`; always conjoined with the `dictionaryId` primary
filter (which on this branch never carries `partOfSpeech`). -/
def semDomFilterOf (args : SearchEntriesArguments) : DbFilter :=
  if jsTruthy args.semDomAbbrev then
    if jsTruthy args.lang then
      .andF (.dictIdEq args.dictionaryId)
        (.fieldElemMatch .semDomAbbrev (jsVal args.lang)
          (.abbrevIn (jsVal args.semDomAbbrev)))
    else
      .andF (.dictIdEq args.dictionaryId)
        (.fieldValue .semDomAbbrev (.abbrevIn (jsVal args.semDomAbbrev)))
  else
    .andF (.dictIdEq args.dictionaryId) (.fieldValue .semDomName (.eqStr args.text))

/-- The language filter (source lines 111-145): with truthy `lang`, an
`$elemMatch` over the headword field when `mainLang` is truthy and equals
`lang`, else over the definition/gloss field; without a truthy `lang`, a
disjunction of value-level regex matches over both fields. -/
def langFilterOf (args : SearchEntriesArguments) : DbFilter :=
  if jsTruthy args.lang then
    let fld :=
      if jsTruthy args.mainLang && (args.mainLang == args.lang) then
        EntryField.mainHeadWord
      else EntryField.definitionOrGloss
    .fieldElemMatch fld (jsVal args.lang) (.regexI args.text)
  else
    .orF (.fieldValue .mainHeadWord (.regexI args.text))
      (.fieldValue .definitionOrGloss (.regexI args.text))

/-- The primary filter (source lines 67, 114-116): `dictionaryId`, plus an
exact part-of-speech condition when `partOfSpeech` is truthy.  The
semantic-domain branch returns before the part-of-speech key is added. -/
def primaryFilterOf (args : SearchEntriesArguments) : DbFilter :=
  if jsTruthy args.partOfSpeech then
    .andF (.dictIdEq args.dictionaryId)
      (.fieldValue .partOfSpeech (.eqStr (jsVal args.partOfSpeech)))
  else .dictIdEq args.dictionaryId

/-- The text predicate (source lines 188-189): the search text wrapped in
double quotes, the `$language` passed in, diacritic sensitivity equal to
`matchAccents === '1'`. -/
def textPredicateOf (args : SearchEntriesArguments) : TextPredicate :=
  { search := "\"" ++ args.text ++ "\""
    language := args.language
    diacriticSensitive := isOne args.matchAccents }

/-- The store call `searchEntries` issues: which operation (find /
aggregate / countDocuments), with which filter(s), collation and
pagination arguments.  One constructor per `return`-carrying branch of the
source. -/
inductive QueryPlan where
  /-- `countDocuments(dbFind)` (source line 97) -/
  | semDomCount (dbFind : DbFilter)
  /-- `find(dbFind).skip(dbSkip).limit(pageLimit)` (source lines 101-106) -/
  | semDomFind (dbFind : DbFilter) (skip lim : Nat)
  /-- `countDocuments(dictionaryPartialSearch)` without a collation argument
  (source lines 166-168) -/
  | partialCount (filter : DbFilter)
  /-- `find(...).collation(\x7b locale, strength \x7d).skip(dbSkip).limit(pageLimit)`
  (source lines 173-179) -/
  | partialFind (filter : DbFilter) (c : Collation) (skip lim : Nat)
  /-- `aggregate(dbFind).toArray()` with no skip or limit (source lines
  200-204) -/
  | fulltextScopedCount (stages : List DbFilter)
  /-- `aggregate(dbFind).skip(dbSkip).limit(pageLimit)` (source lines
  209-214) -/
  | fulltextScopedFind (stages : List DbFilter) (skip lim : Nat)
  /-- `countDocuments(dictionaryFulltextSearch)` (source lines 221-223) -/
  | fulltextCount (filter : DbFilter)
  /-- `find(dictionaryFulltextSearch).skip(dbSkip).limit(pageLimit)`
  (source lines 228-233) -/
  | fulltextFind (filter : DbFilter) (skip lim : Nat)
deriving DecidableEq, Repr

/-- The branching of `searchEntries` (source lines 57-235), reproduced to
record the store call each request leads to. -/
def searchPlan (args : SearchEntriesArguments) : QueryPlan :=
  let dbSkip := getDbSkip args.pageNumber args.pageLimit
  if isOne args.searchSemDoms then
    let dbFind := semDomFilterOf args
    if isOne args.countTotalOnly then .semDomCount dbFind
    else .semDomFind dbFind dbSkip args.pageLimit
  else if isOne args.matchPartial then
    let dictionaryPartialSearch := DbFilter.andF (primaryFilterOf args) (langFilterOf args)
    if isOne args.countTotalOnly then .partialCount dictionaryPartialSearch
    else .partialFind dictionaryPartialSearch (collationOf args) dbSkip args.pageLimit
  else
    let dictionaryFulltextSearch :=
      DbFilter.andF (primaryFilterOf args) (.textF (textPredicateOf args))
    if jsTruthy args.lang then
      let stages := [dictionaryFulltextSearch, langFilterOf args]
      if isOne args.countTotalOnly then .fulltextScopedCount stages
      else .fulltextScopedFind stages dbSkip args.pageLimit
    else
      if isOne args.countTotalOnly then .fulltextCount dictionaryFulltextSearch
      else .fulltextFind dictionaryFulltextSearch dbSkip args.pageLimit

/-- Modelled from the spec: the response module is not under `src/`; spec
section 3 fixes the envelope as Success(list or count) / NotFound /
Failure, with NotFound payload contents insignificant. -/
inductive Payload where
  | entries (es : List Entry)
  | count (n : Nat)
deriving DecidableEq, Repr

/-- Modelled from the spec: see `Payload`. -/
inductive Response where
  | success (p : Payload)
  | notFound
  | failure (errorType errorMessage : String)
deriving DecidableEq, Repr

/-- Store semantics, modelled from the spec (section 6): a find is a filter
over the collection with skip/limit pagination. -/
def page (es : List Entry) (skip lim : Nat) : List Entry :=
  (es.drop skip).take lim

def findPage (db : List Entry) (f : DbFilter) (skip lim : Nat) : List Entry :=
  page (db.filter (evalFilter f)) skip lim

/-- Store semantics, modelled from the spec (section 6): `countDocuments`
counts the documents satisfying the filter. -/
def countDocuments (db : List Entry) (f : DbFilter) : Nat :=
  (db.filter (evalFilter f)).length

/-- Store semantics, modelled from the spec (sections 6 and the glossary):
an aggregation of `$match` stages applies the stages sequentially, each
stage filtering the previous stage's output. -/
def aggregateAll (db : List Entry) (stages : List DbFilter) : List Entry :=
  stages.foldl (fun acc s => acc.filter (evalFilter s)) db

/-- The empty-to-NotFound gate of the source (lines 237-240). -/
def shapeEntries (es : List Entry) : Response :=
  if es.isEmpty then .notFound else .success (.entries es)

/-- Execution of a plan against the store, with the result shaping of each
branch of the source: count branches return a count envelope, the
semantic-domain find returns its page directly (source line 108, before
the empty gate), the remaining finds run through the empty gate. -/
def execPlan (p : QueryPlan) (db : List Entry) : Response :=
  match p with
  | .semDomCount f => .success (.count (countDocuments db f))
  | .semDomFind f skip lim => .success (.entries (findPage db f skip lim))
  | .partialCount f => .success (.count (countDocuments db f))
  | .partialFind f _ skip lim => shapeEntries (findPage db f skip lim)
  | .fulltextScopedCount stages => .success (.count (aggregateAll db stages).length)
  | .fulltextScopedFind stages skip lim => shapeEntries (page (aggregateAll db stages) skip lim)
  | .fulltextCount f => .success (.count (countDocuments db f))
  | .fulltextFind f skip lim => shapeEntries (findPage db f skip lim)

/-- `searchEntries` as a function of its argument record and the store
contents. -/
def searchEntries (args : SearchEntriesArguments) (db : List Entry) : Response :=
  execPlan (searchPlan args) db

/-- The four mutually exclusive search strategies of the specification
(sections 4.1 and 9). -/
inductive SearchStrategy where
  | semanticDomain
  | partialMatch
  | fullTextScoped
  | fullTextUnscoped
deriving DecidableEq, Repr

/-- The strategy a plan belongs to, read off the store call it makes. -/
def planStrategy : QueryPlan → SearchStrategy
  | .semDomCount _ => .semanticDomain
  | .semDomFind _ _ _ => .semanticDomain
  | .partialCount _ => .partialMatch
  | .partialFind _ _ _ _ => .partialMatch
  | .fulltextScopedCount _ => .fullTextScoped
  | .fulltextScopedFind _ _ _ => .fullTextScoped
  | .fulltextCount _ => .fullTextUnscoped
  | .fulltextFind _ _ _ => .fullTextUnscoped

/-- The collation argument a plan passes to the store, if any.  Only the
partial-match find chains a `.collation(...)` call in the source; every
other store call, the partial-match `countDocuments` included, passes
none. -/
def planCollation : QueryPlan → Option Collation
  | .partialFind _ c _ _ => some c
  | _ => none

/-- The text-search predicate contained in a filter document, if any. -/
def filterTextPredicate : DbFilter → Option TextPredicate
  | .textF t => some t
  | .andF a b => (filterTextPredicate a).orElse fun _ => filterTextPredicate b
  | .orF a b => (filterTextPredicate a).orElse fun _ => filterTextPredicate b
  | _ => none

/-- The text-search predicate a plan hands to the store, if any (for the
scoped full-text pipeline, the predicate of its first stage). -/
def planTextPredicate : QueryPlan → Option TextPredicate
  | .fulltextCount f => filterTextPredicate f
  | .fulltextFind f _ _ => filterTextPredicate f
  | .fulltextScopedCount stages => stages.head?.bind filterTextPredicate
  | .fulltextScopedFind stages _ _ => stages.head?.bind filterTextPredicate
  | _ => none

/-!
The handler (source lines 248-297).  Parameter extraction and
defaulting/clamping happen here, before `searchEntries` is invoked.  The
pagination computation works on JavaScript numbers, which the embedding
represents as `Option ℚ` with `none` standing for NaN.
-/

/-- JavaScript `Number(s)` for the plain decimal grammar: surrounding
spaces are ignored, the empty string is 0, an optional sign precedes
digits with an optional fraction, and everything else is NaN (`none`).
Other numeric formats of JavaScript (exponent, hexadecimal, Infinity) are
not modelled; no theorem below depends on them. -/
def jsNumber (s : String) : Option ℚ :=
  let cs := ((s.data.dropWhile (· = ' ')).reverse.dropWhile (· = ' ')).reverse
  if cs.isEmpty then some 0
  else
    let signedMag : Bool → List Char → Option ℚ := fun neg rest =>
      let intPart := rest.takeWhile Char.isDigit
      let tail := rest.dropWhile Char.isDigit
      let natVal : List Char → Nat := fun ds =>
        ds.foldl (fun acc c => acc * 10 + (c.toNat - '0'.toNat)) 0
      let mag : Option ℚ :=
        match tail with
        | [] => if intPart.isEmpty then none else some ((natVal intPart : ℚ))
        | '.' :: fracCs =>
          if fracCs.all Char.isDigit && !(intPart.isEmpty && fracCs.isEmpty) then
            some ((natVal intPart : ℚ) + (natVal fracCs : ℚ) / ((10 : ℚ) ^ fracCs.length))
          else none
        | _ => none
      mag.map fun q => if neg then -q else q
    match cs with
    | '-' :: rest => signedMag true rest
    | '+' :: rest => signedMag false rest
    | rest => signedMag false rest

/-- JavaScript `Math.max(x, c)` with a NaN-propagating first argument. -/
def jsMax (x : Option ℚ) (c : ℚ) : Option ℚ := x.map fun q => max q c

/-- JavaScript `Math.min(x, c)` with a NaN-propagating first argument. -/
def jsMin (x : Option ℚ) (c : ℚ) : Option ℚ := x.map fun q => min q c

/-- The handler's `$language` value (source line 269):
`stemmingLanguage ?? 'none'`. -/
def handlerStemmingLanguage (raw : Option String) : String := raw.getD "none"

/-- The handler's pageNumber (source line 271):
`Math.max(Number(raw ?? '1'), 1)`. -/
def handlerPageNumber (raw : Option String) : Option ℚ :=
  jsMax (jsNumber (raw.getD "1")) 1

/-- The handler's pageLimit (source lines 272-275):
`Math.min(Math.max(Number(raw ?? DB_MAX_DOCUMENTS_PER_CALL), 1), DB_MAX_DOCUMENTS_PER_CALL)`;
when the raw parameter is absent, `Number` receives the numeric constant
itself. -/
def handlerPageLimit (raw : Option String) : Option ℚ :=
  jsMin
    (jsMax
      (match raw with
       | none => some DB_MAX_DOCUMENTS_PER_CALL
       | some s => jsNumber s) 1)
    DB_MAX_DOCUMENTS_PER_CALL

/-!
Concrete instances used by counterexamples and witnesses.
-/

/-- A representative argument record: page 1 of size 100, dictionary `d1`,
search text `cat`, all optional parameters absent, stemming disabled. -/
def baseArgs : SearchEntriesArguments :=
  { pageNumber := 1, pageLimit := 100, dictionaryId := some "d1",
    searchSemDoms := none, semDomAbbrev := none, lang := none,
    text := "cat", countTotalOnly := none, partOfSpeech := none,
    mainLang := none, matchPartial := none, matchAccents := none,
    language := "none" }

/-- An entry of dictionary `d1` whose only content is one semantic-domain
abbreviation value. -/
def semEntry (a : String) : Entry :=
  { dictionaryId := "d1", mainHeadWord := [], definitionOrGloss := [],
    partOfSpeech := [], semDomName := [],
    semDomAbbrev := [{ lang := "en", value := a }] }

/-- An entry of dictionary `d1` with a single French headword containing
`cat`. -/
def frHeadEntry : Entry :=
  { dictionaryId := "d1",
    mainHeadWord := [{ lang := "fr", value := "catalogue" }],
    definitionOrGloss := [], partOfSpeech := [], semDomName := [],
    semDomAbbrev := [] }

/-- A partial-match count-only request with accent matching on. -/
def c3CountArgs : SearchEntriesArguments :=
  { baseArgs with
    matchPartial := some "1"
    matchAccents := some "1"
    countTotalOnly := some "1" }

/-- The paginated find request corresponding to `c3CountArgs`. -/
def c3FindArgs : SearchEntriesArguments :=
  { c3CountArgs with countTotalOnly := none }

/-!
Small facts about the flag and truthiness tests, and about the
empty-to-NotFound gate, shared by several of the claim proofs below.
-/

lemma isOne_eq_true {o : Option String} : isOne o = true ↔ o = some "1" := by
  simp [isOne]

lemma isOne_none : isOne none = false := rfl

lemma isOne_eq_false {o : Option String} : isOne o = false ↔ o ≠ some "1" := by
  cases o <;> simp [isOne]

lemma isOne_eq_decide (o : Option String) : isOne o = decide (o = some "1") := by
  cases o with
  | none => rfl
  | some s => by_cases h : s = "1" <;> simp [isOne, h]

lemma jsTruthy_eq_false {o : Option String} :
    jsTruthy o = false ↔ o = none ∨ o = some "" := by
  cases o <;> simp [jsTruthy]

lemma shapeEntries_spec (es : List Entry) :
    shapeEntries es = .notFound ∨
      ∃ l, l ≠ [] ∧ shapeEntries es = .success (.entries l) := by
  by_cases h : es = []
  · left; simp [shapeEntries, h]
  · right; exact ⟨es, h, by simp [shapeEntries, h]⟩

/-- Claim C1, counterexample: a semantic-domain request (searchSemDoms set
to the string 1) that is not count-only and whose query returns the empty
list yields Success of the empty list, not NotFound — the semantic-domain
find returns its page directly, before the empty-to-NotFound gate, so the
claim's "including when the chosen strategy is semantic-domain search" is
false on the code. -/
theorem c1_counterexample :
    searchEntries { baseArgs with searchSemDoms := some "1" } [] =
        .success (.entries []) ∧
      searchEntries { baseArgs with searchSemDoms := some "1" } [] ≠
        .notFound := by
  constructor <;> decide

/-- Claim C1, amended: for every request that is not count-only and whose
selected strategy is not semantic-domain search, an empty executed result
list yields NotFound and Success of an empty list is never returned; the
semantic-domain find path, by contrast, returns Success of its (possibly
empty) page without the empty gate (see the counterexample). -/
theorem c1_empty_yields_notFound (args : SearchEntriesArguments)
    (db : List Entry) (hs : args.searchSemDoms ≠ some "1")
    (hc : args.countTotalOnly ≠ some "1") :
    searchEntries args db = .notFound ∨
      ∃ es, es ≠ [] ∧ searchEntries args db = .success (.entries es) := by
  have hs' : isOne args.searchSemDoms = false := isOne_eq_false.mpr hs
  have hc' : isOne args.countTotalOnly = false := isOne_eq_false.mpr hc
  by_cases hp : isOne args.matchPartial = true <;>
    by_cases hl : jsTruthy args.lang = true <;>
    · simp only [searchEntries, searchPlan, execPlan, hs', hc', hp, hl,
        Bool.false_eq_true, if_false, if_true, ite_true, ite_false,
        Bool.true_eq_false]
      exact shapeEntries_spec _

/-- Claim C1 witness: a partial-match request over an empty store is
covered by the amended statement. -/
theorem c1_empty_yields_notFound_witness :
    searchEntries { baseArgs with matchPartial := some "1" } [] = .notFound ∨
      ∃ es, es ≠ [] ∧
        searchEntries { baseArgs with matchPartial := some "1" } [] =
          .success (.entries es) :=
  c1_empty_yields_notFound _ _ (by decide) (by decide)

/-- Claim C2 (code bug): the semantic-domain abbreviation filter for
semDomAbbrev equal to 1 is built from the unescaped regex template caret,
abbreviation, dot, in which the dot is the any-character wildcard; it
therefore matches the abbreviation 10 in addition to 1, 1.2 and 1.2.3
(while correctly rejecting 2).  The claim and the spec require a dotted
hierarchical match that rejects 10, which is clearly the intent of an
abbreviation-hierarchy filter; the unescaped dot is a slip in the code. -/
theorem c2_wildcard_dot_matches_ten :
    searchEntries { baseArgs with searchSemDoms := some "1", semDomAbbrev := some "1" }
        [semEntry "1", semEntry "1.2", semEntry "1.2.3", semEntry "10", semEntry "2"] =
      .success (.entries [semEntry "1", semEntry "1.2", semEntry "1.2.3", semEntry "10"]) ∧
    evalCond (.abbrevIn "1") "10" = true ∧
    evalCond (.abbrevIn "1") "2" = false := by
  refine ⟨by decide, by decide, by decide⟩

/-- Claim C6: whatever strategy is selected, a count-only request
(countTotalOnly equal to the string 1) returns Success of a count payload
— which carries no entries by construction — and in particular never a
NotFound envelope, even when the count is zero. -/
theorem c6_count_always_success (args : SearchEntriesArguments)
    (db : List Entry) (hc : args.countTotalOnly = some "1") :
    ∃ n, searchEntries args db = .success (.count n) := by
  have hc' : isOne args.countTotalOnly = true := isOne_eq_true.mpr hc
  by_cases h1 : isOne args.searchSemDoms = true <;>
    by_cases h2 : isOne args.matchPartial = true <;>
    by_cases h3 : jsTruthy args.lang = true
  all_goals
    simp only [searchEntries, searchPlan, execPlan, hc', h1, h2, h3,
      Bool.false_eq_true, if_false, if_true, ite_true, ite_false]
    exact ⟨_, rfl⟩

/-- Claim C6 witness: a semantic-domain count over an empty store returns
Success of a (zero) count. -/
theorem c6_count_always_success_witness :
    ∃ n, searchEntries { baseArgs with countTotalOnly := some "1" } [] =
      .success (.count n) :=
  c6_count_always_success _ _ rfl

/-- Claim C7: every request is executed by exactly one of the four
strategies — the classification below is a total function of the request —
and searchSemDoms equal to the string 1 selects semantic-domain search
regardless of matchPartial and lang; the partial-match and full-text
filters never appear in a semantic-domain plan (the semDom plan
constructors carry only the semantic-domain filter). -/
theorem c7_strategy_classification (args : SearchEntriesArguments) :
    planStrategy (searchPlan args) =
      (if args.searchSemDoms = some "1" then .semanticDomain
       else if args.matchPartial = some "1" then .partialMatch
       else if jsTruthy args.lang then .fullTextScoped
       else .fullTextUnscoped) := by
  by_cases h1 : args.searchSemDoms = some "1" <;>
    by_cases h2 : args.matchPartial = some "1" <;>
    by_cases h3 : jsTruthy args.lang = true <;>
    by_cases h4 : args.countTotalOnly = some "1" <;>
    simp [searchPlan, planStrategy, isOne, h1, h2, h3, h4]

/-- Claim C3, counterexample: for a partial-match count-only request with
matchAccents set, the count call passes no collation at all, while the
corresponding paginated find passes the computed collation (default locale,
escalated strength) — so the count is not executed with the same collation
as the find, refuting the claim. -/
theorem c3_counterexample :
    planCollation (searchPlan c3CountArgs) = none ∧
    planCollation (searchPlan c3FindArgs) =
      some { locale := DB_COLLATION_LOCALE_DEFAULT_FOR_INSENSITIVITY,
             strength := DB_COLLATION_STRENGTH_FOR_SENSITIVITY } ∧
    planCollation (searchPlan c3CountArgs) ≠ planCollation (searchPlan c3FindArgs) := by
  refine ⟨by decide, by decide, by decide⟩

/-- Claim C3, amended: in partial-match mode a count-only request executes
`countDocuments` over the same filter as the corresponding paginated find,
but without any collation argument — the computed collation (locale and
matchAccents strength escalation) is applied only to the find. -/
theorem c3_count_same_filter_no_collation (args : SearchEntriesArguments)
    (hs : args.searchSemDoms ≠ some "1") (hp : args.matchPartial = some "1")
    (hc : args.countTotalOnly = some "1") :
    searchPlan args =
      .partialCount (.andF (primaryFilterOf args) (langFilterOf args)) ∧
    searchPlan { args with countTotalOnly := none } =
      .partialFind (.andF (primaryFilterOf args) (langFilterOf args))
        (collationOf args) (getDbSkip args.pageNumber args.pageLimit)
        args.pageLimit ∧
    planCollation (searchPlan args) = none := by
  have hs' : isOne args.searchSemDoms = false := isOne_eq_false.mpr hs
  have hp' : isOne args.matchPartial = true := isOne_eq_true.mpr hp
  have hc' : isOne args.countTotalOnly = true := isOne_eq_true.mpr hc
  refine ⟨?_, ?_, ?_⟩
  · simp only [searchPlan, hs', hp', hc', Bool.false_eq_true, if_false,
      if_true, ite_true, ite_false]
  · simp only [searchPlan, hs', hp', isOne_none, Bool.false_eq_true,
      if_false, if_true, ite_true, ite_false]
    rfl
  · simp only [searchPlan, planCollation, hs', hp', hc', Bool.false_eq_true,
      if_false, if_true, ite_true, ite_false]

/-- Claim C3 witness: the amended statement at the concrete count request
`c3CountArgs`. -/
theorem c3_count_same_filter_no_collation_witness :
    searchPlan c3CountArgs =
      .partialCount (.andF (primaryFilterOf c3CountArgs) (langFilterOf c3CountArgs)) ∧
    searchPlan { c3CountArgs with countTotalOnly := none } =
      .partialFind (.andF (primaryFilterOf c3CountArgs) (langFilterOf c3CountArgs))
        (collationOf c3CountArgs)
        (getDbSkip c3CountArgs.pageNumber c3CountArgs.pageLimit)
        c3CountArgs.pageLimit ∧
    planCollation (searchPlan c3CountArgs) = none :=
  c3_count_same_filter_no_collation c3CountArgs (by decide) rfl rfl

/-- Claim C4: for a non-semantic-domain request, the language filter is,
when lang is absent (or empty, which the code treats as absent), a
disjunction matching the case-insensitive regex against headword values or
definition/gloss values with no language constraint; when lang is present,
it targets the headword field exactly when lang equals mainLang and the
definition/gloss field otherwise, requiring a single tagged element whose
language equals lang and whose value matches the regex — conjoined within
one element. -/
theorem c4_lang_filter_semantics (args : SearchEntriesArguments) (e : Entry)
    (_hs : args.searchSemDoms ≠ some "1") :
    ((args.lang = none ∨ args.lang = some "") →
      (evalFilter (langFilterOf args) e = true ↔
        (∃ tv ∈ e.mainHeadWord, regexITest args.text tv.value = true) ∨
        (∃ tv ∈ e.definitionOrGloss, regexITest args.text tv.value = true))) ∧
    (∀ l, args.lang = some l → l ≠ "" →
      (evalFilter (langFilterOf args) e = true ↔
        ∃ tv ∈ (if args.mainLang = some l then e.mainHeadWord
                else e.definitionOrGloss),
          tv.lang = l ∧ regexITest args.text tv.value = true)) := by
  constructor
  · intro hl
    have ht : jsTruthy args.lang = false := jsTruthy_eq_false.mpr hl
    simp [langFilterOf, ht, evalFilter, entryField, evalCond,
      List.any_eq_true]
  · intro l hl hne
    have ht : jsTruthy args.lang = true := by
      simp [jsTruthy, hl, hne]
    have htl : jsTruthy (some l) = true := by
      simp [jsTruthy, hne]
    have hfld : (jsTruthy args.mainLang && (args.mainLang == args.lang)) = true ↔
        args.mainLang = some l := by
      rw [hl]
      cases hm : args.mainLang with
      | none => simp [jsTruthy]
      | some m =>
        simp only [jsTruthy, Bool.and_eq_true, Bool.not_eq_eq_eq_not,
          Bool.not_true, beq_iff_eq, Option.some.injEq]
        constructor
        · rintro ⟨-, h⟩; exact h
        · intro h; subst h; exact ⟨by simpa using hne, rfl⟩
    by_cases hm : args.mainLang = some l
    · have : (jsTruthy args.mainLang && (args.mainLang == args.lang)) = true :=
        hfld.mpr hm
      simp [langFilterOf, ht, htl, this, hm, evalFilter, entryField, evalCond,
        jsVal, hl, List.any_eq_true, Bool.and_eq_true, beq_iff_eq,
        and_assoc]
    · have : (jsTruthy args.mainLang && (args.mainLang == args.lang)) = false := by
        rw [Bool.eq_false_iff]
        intro hcon
        exact hm (hfld.mp hcon)
      simp [langFilterOf, ht, htl, this, hm, evalFilter, entryField, evalCond,
        jsVal, hl, List.any_eq_true, Bool.and_eq_true, beq_iff_eq,
        and_assoc]

/-- Claim C4 witness: with lang and mainLang both fr, an entry whose
French-tagged headword contains the search text satisfies the language
filter. -/
theorem c4_lang_filter_semantics_witness :
    evalFilter
        (langFilterOf { baseArgs with lang := some "fr", mainLang := some "fr" })
        frHeadEntry = true := by
  have h :=
    (c4_lang_filter_semantics
        { baseArgs with lang := some "fr", mainLang := some "fr" }
        frHeadEntry (by decide)).2 "fr" rfl (by decide)
  exact h.mpr (by decide)

/-- Claim C5: a full-text request with lang set is executed as a two-stage
sequential aggregation — the text-search predicate (conjoined with the
primary filter) first, the language/field filter second over the first
stage's matches — and in count-only mode the staged query runs unpaginated
with the returned count equal to the length of the materialized result
list, while in non-count mode the same two stages are paginated and run
through the empty gate. -/
theorem c5_scoped_fulltext_two_stage (args : SearchEntriesArguments)
    (db : List Entry) (hs : args.searchSemDoms ≠ some "1")
    (hp : args.matchPartial ≠ some "1") (hl : jsTruthy args.lang = true) :
    (args.countTotalOnly = some "1" →
      searchPlan args =
        .fulltextScopedCount
          [.andF (primaryFilterOf args) (.textF (textPredicateOf args)),
           langFilterOf args] ∧
      searchEntries args db =
        .success (.count
          (((db.filter
                (evalFilter
                  (.andF (primaryFilterOf args) (.textF (textPredicateOf args))))).filter
              (evalFilter (langFilterOf args))).length))) ∧
    (args.countTotalOnly ≠ some "1" →
      searchPlan args =
        .fulltextScopedFind
          [.andF (primaryFilterOf args) (.textF (textPredicateOf args)),
           langFilterOf args]
          (getDbSkip args.pageNumber args.pageLimit) args.pageLimit ∧
      searchEntries args db =
        shapeEntries
          (page
            ((db.filter
                (evalFilter
                  (.andF (primaryFilterOf args) (.textF (textPredicateOf args))))).filter
              (evalFilter (langFilterOf args)))
            (getDbSkip args.pageNumber args.pageLimit) args.pageLimit)) := by
  have hs' : isOne args.searchSemDoms = false := isOne_eq_false.mpr hs
  have hp' : isOne args.matchPartial = false := isOne_eq_false.mpr hp
  constructor
  · intro hc
    have hc' : isOne args.countTotalOnly = true := isOne_eq_true.mpr hc
    constructor
    · simp only [searchPlan, hs', hp', hc', hl, Bool.false_eq_true, if_false,
        if_true, ite_true, ite_false]
    · simp only [searchEntries, searchPlan, execPlan, hs', hp', hc', hl,
        Bool.false_eq_true, if_false, if_true, ite_true, ite_false,
        aggregateAll, List.foldl]
  · intro hc
    have hc' : isOne args.countTotalOnly = false := isOne_eq_false.mpr hc
    constructor
    · simp only [searchPlan, hs', hp', hc', hl, Bool.false_eq_true, if_false,
        if_true, ite_true, ite_false]
    · simp only [searchEntries, searchPlan, execPlan, hs', hp', hc', hl,
        Bool.false_eq_true, if_false, if_true, ite_true, ite_false,
        aggregateAll, List.foldl]

/-- Claim C5 witness: a French-scoped full-text count over an empty store
returns the length of the (empty) materialized two-stage result. -/
theorem c5_scoped_fulltext_two_stage_witness :
    searchEntries
        { baseArgs with lang := some "fr", countTotalOnly := some "1" } [] =
      .success (.count 0) := by
  have h :=
    ((c5_scoped_fulltext_two_stage
        { baseArgs with lang := some "fr", countTotalOnly := some "1" } []
        (by decide) (by decide) (by decide)).1 rfl).2
  exact h

/-- Claim C8: every full-text request (neither semantic-domain nor
partial-match mode) hands the store a text-search predicate whose search
phrase is the request text wrapped in double quotes, whose stemming
language is the `$language` passed in, and whose diacritic sensitivity is
exactly the test matchAccents equals the string 1; and the handler
defaults the stemming language to none while passing any caller-supplied
value through unchanged. -/
theorem c8_fulltext_predicate (args : SearchEntriesArguments)
    (hs : args.searchSemDoms ≠ some "1") (hp : args.matchPartial ≠ some "1") :
    planTextPredicate (searchPlan args) =
      some { search := "\"" ++ args.text ++ "\"",
             language := args.language,
             diacriticSensitive := decide (args.matchAccents = some "1") } ∧
    handlerStemmingLanguage none = "none" ∧
    (∀ s, handlerStemmingLanguage (some s) = s) := by
  refine ⟨?_, rfl, fun s => rfl⟩
  by_cases h3 : jsTruthy args.lang = true <;>
    by_cases h4 : args.countTotalOnly = some "1" <;>
    by_cases hpos : jsTruthy args.partOfSpeech = true <;>
    simp [searchPlan, planTextPredicate, filterTextPredicate, primaryFilterOf,
      textPredicateOf, isOne_eq_decide, hs, hp, h3, h4, hpos,
      Option.orElse]

/-- Claim C8 witness: the unscoped full-text request `baseArgs` carries
the quoted phrase, the disabled stemming language and insensitive
diacritics. -/
theorem c8_fulltext_predicate_witness :
    planTextPredicate (searchPlan baseArgs) =
      some { search := "\"cat\"", language := "none",
             diacriticSensitive := false } :=
  (c8_fulltext_predicate baseArgs (by decide) (by decide)).1

/-- Claim C9, counterexample: for the raw pageNumber string abc, JavaScript
`Number` yields NaN, `Math.max(NaN, 1)` stays NaN, and the handler passes
that NaN through to the core — so the handler does not pass an integer at
least 1 for every value of the raw query strings. -/
theorem c9_counterexample :
    handlerPageNumber (some "abc") = none ∧
    ¬ ∃ n : ℤ, 1 ≤ n ∧ handlerPageNumber (some "abc") = some (n : ℚ) := by
  have h : handlerPageNumber (some "abc") = none := by decide
  refine ⟨h, ?_⟩
  rintro ⟨n, -, hn⟩
  rw [h] at hn
  exact Option.noConfusion hn

/-- Claim C9, amended: whenever the raw pageNumber and pageLimit strings
parse as numbers (are not NaN), the handler passes pageNumber at least 1
and pageLimit between 1 and the maximum of 100, with absent parameters
defaulting to 1 and 100; non-numeric raw strings are passed through as
NaN, and fractional numeric strings as non-integers, so the claim's
integrality for every raw value fails (see the counterexample). -/
theorem c9_clamped_when_numeric (rawN rawL : Option String) (qn ql : ℚ)
    (hn : handlerPageNumber rawN = some qn)
    (hl : handlerPageLimit rawL = some ql) :
    (1 ≤ qn ∧ 1 ≤ ql ∧ ql ≤ DB_MAX_DOCUMENTS_PER_CALL) ∧
    handlerPageNumber none = some 1 ∧
    handlerPageLimit none = some DB_MAX_DOCUMENTS_PER_CALL := by
  have hql : 1 ≤ ql ∧ ql ≤ DB_MAX_DOCUMENTS_PER_CALL := by
    unfold handlerPageLimit jsMin jsMax at hl
    cases rawL with
    | none =>
      simp only [Option.map_some', Option.some.injEq] at hl
      rw [← hl]
      exact ⟨le_min (le_max_right _ _)
          (by norm_num [DB_MAX_DOCUMENTS_PER_CALL]),
        min_le_right _ _⟩
    | some s =>
      dsimp only at hl
      cases hy : jsNumber s with
      | none => rw [hy] at hl; exact absurd hl (by simp)
      | some q =>
        rw [hy] at hl
        simp only [Option.map_some', Option.some.injEq] at hl
        rw [← hl]
        exact ⟨le_min (le_max_right _ _)
            (by norm_num [DB_MAX_DOCUMENTS_PER_CALL]),
          min_le_right _ _⟩
  refine ⟨⟨?_, hql.1, hql.2⟩, by decide, by decide⟩
  unfold handlerPageNumber jsMax at hn
  cases hx : jsNumber (rawN.getD "1") with
  | none => rw [hx] at hn; exact absurd hn (by simp)
  | some q =>
    rw [hx] at hn
    simp only [Option.map_some', Option.some.injEq] at hn
    rw [← hn]
    exact le_max_right q 1

/-- Claim C9 witness: the amended statement at the numeric raw strings 3
and 7. -/
theorem c9_clamped_when_numeric_witness :
    ((1 : ℚ) ≤ 3 ∧ (1 : ℚ) ≤ 7 ∧ (7 : ℚ) ≤ DB_MAX_DOCUMENTS_PER_CALL) ∧
    handlerPageNumber none = some 1 ∧
    handlerPageLimit none = some DB_MAX_DOCUMENTS_PER_CALL :=
  c9_clamped_when_numeric (some "3") (some "7") 3 7 (by decide) (by decide)

/-- Claim C10 (implicit): each boolean-flag parameter — searchSemDoms,
matchPartial, matchAccents, countTotalOnly — is true only when it equals
the exact string 1: replacing any of them by any other string value
produces the same query plan as leaving the flag absent (so, for example,
matchPartial set to the string true silently selects full-text search). -/
theorem c10_flags_strict_one (args : SearchEntriesArguments) (v : String)
    (hv : v ≠ "1") :
    searchPlan { args with searchSemDoms := some v } =
      searchPlan { args with searchSemDoms := none } ∧
    searchPlan { args with matchPartial := some v } =
      searchPlan { args with matchPartial := none } ∧
    searchPlan { args with matchAccents := some v } =
      searchPlan { args with matchAccents := none } ∧
    searchPlan { args with countTotalOnly := some v } =
      searchPlan { args with countTotalOnly := none } := by
  have hv1 : isOne (some v) = false := by simp [isOne, hv]
  refine ⟨?_, ?_, ?_, ?_⟩ <;>
    simp [searchPlan, semDomFilterOf, primaryFilterOf, langFilterOf,
      collationOf, textPredicateOf, isOne_none, hv1]

/-- Claim C10 witness: the flag value true behaves as an unset flag on the
concrete request `baseArgs`. -/
theorem c10_flags_strict_one_witness :
    searchPlan { baseArgs with searchSemDoms := some "true" } =
      searchPlan { baseArgs with searchSemDoms := none } ∧
    searchPlan { baseArgs with matchPartial := some "true" } =
      searchPlan { baseArgs with matchPartial := none } ∧
    searchPlan { baseArgs with matchAccents := some "true" } =
      searchPlan { baseArgs with matchAccents := none } ∧
    searchPlan { baseArgs with countTotalOnly := some "true" } =
      searchPlan { baseArgs with countTotalOnly := none } :=
  c10_flags_strict_one baseArgs "true" (by decide)

end Webonary
